import Mathlib

/-!
Verification of the dependency engine-range resolution core of the
`node-support-range` editor extension.

The embedding models, from the source:
* a semantic-version value (`SemVer`) and the subset of the `semver`
  library behaviour the program exercises: strict version parsing
  (`(0|[1-9]\d*).(0|[1-9]\d*).(0|[1-9]\d*)`, optional `v` prefix,
  no prerelease/build), comparator ranges built from space-separated
  `>= > <= < =`-comparators, `compare`-based ordering, and the
  never-throwing satisfaction test (`satisfies` returns `false` on an
  invalid range or version);
* catalog construction (`src/shared/constants.js` and the
  filtered variant), the constraint collector and the two range
  resolvers of `src/utils/analyzeProjectIncludes.js`, with filesystem
  reads replaced by explicit input data;
* `formatVersionRange` of `src/utils/common.js`, with JavaScript
  string falsiness (`null` and `""`) made explicit.
-/

/-- A parsed semantic version `major.minor.patch` (release versions only;
the program's catalogs and defaults carry no prerelease tags). -/
structure SemVer where
  major : Nat
  minor : Nat
  patch : Nat
deriving DecidableEq, Repr

/-- Split a character list at every occurrence of `sep` (occurrences are
consumed; empty segments are kept, as `String.split` does). -/
def splitOnChar (sep : Char) : List Char → List (List Char)
  | [] => [[]]
  | c :: rest =>
    let r := splitOnChar sep rest
    if c = sep then [] :: r
    else
      match r with
      | [] => [[c]]
      | h :: t => (c :: h) :: t

/-- Value of a list of decimal digit characters. -/
def digitsToNat (l : List Char) : Nat :=
  l.foldl (fun acc c => acc * 10 + (c.toNat - 48)) 0

/-- Parse a numeric identifier the way the semver grammar does:
`0` or a nonzero digit followed by digits (no leading zeros, no signs). -/
def parseNumCanon : List Char → Option Nat
  | [] => none
  | [c] => if c.isDigit then some (c.toNat - 48) else none
  | c :: rest =>
    if c.isDigit && (c != '0') && rest.all Char.isDigit then
      some (digitsToNat (c :: rest))
    else none

/-- Parse a version string (as characters): optional `v` prefix, then
exactly three dot-separated canonical numbers, mirroring the strict
`semver` full-version grammar restricted to release versions. -/
def parseSemVerChars (l : List Char) : Option SemVer :=
  let body := match l with
    | 'v' :: rest => rest
    | other => other
  match splitOnChar '.' body with
  | [a, b, c] =>
    match parseNumCanon a, parseNumCanon b, parseNumCanon c with
    | some M, some m, some p => some ⟨M, m, p⟩
    | _, _, _ => none
  | _ => none

/-- Parse of a version string in the style of `semver.valid`; `none`
models an invalid version (e.g. a named release-channel alias). -/
def parseSemVer (s : String) : Option SemVer :=
  parseSemVerChars s.data

/-- Semantic-version precedence, as `semver.compare` computes it for
release versions: lexicographic on (major, minor, patch). -/
def cmpVer (x y : SemVer) : Ordering :=
  if x.major < y.major then .lt
  else if y.major < x.major then .gt
  else if x.minor < y.minor then .lt
  else if y.minor < x.minor then .gt
  else if x.patch < y.patch then .lt
  else if y.patch < x.patch then .gt
  else .eq

/-- Comparison lifted to parse results (every string actually compared by
the program parses; the `none` cases only make the function total). -/
def cmpOpt : Option SemVer → Option SemVer → Ordering
  | none, none => .eq
  | none, some _ => .lt
  | some _, none => .gt
  | some a, some b => cmpVer a b

/-- The boolean "not greater" order on version strings used to model the
JavaScript `.sort(compare)` calls on the catalogs. -/
def leVerStr (a b : String) : Bool :=
  cmpOpt (parseSemVer a) (parseSemVer b) != Ordering.gt

/-- A comparator operator of a range expression. -/
inductive CompOp
  | ge
  | gt
  | le
  | lt
  | eq
deriving DecidableEq, Repr

/-- One comparator of a range expression: an operator and a version. -/
structure Comparator where
  op : CompOp
  ver : SemVer
deriving DecidableEq, Repr

/-- Parse one comparator token: an optional operator prefix
(`>=`, `<=`, `>`, `<`, `=`, or none, meaning equality) and a version. -/
def parseComparator (t : List Char) : Option Comparator :=
  match t with
  | '>' :: '=' :: rest => (parseSemVerChars rest).map (⟨.ge, ·⟩)
  | '<' :: '=' :: rest => (parseSemVerChars rest).map (⟨.le, ·⟩)
  | '>' :: rest => (parseSemVerChars rest).map (⟨.gt, ·⟩)
  | '<' :: rest => (parseSemVerChars rest).map (⟨.lt, ·⟩)
  | '=' :: rest => (parseSemVerChars rest).map (⟨.eq, ·⟩)
  | rest => (parseSemVerChars rest).map (⟨.eq, ·⟩)

/-- Split a range string into whitespace-separated comparator tokens. -/
def splitWS (l : List Char) : List (List Char) :=
  (splitOnChar ' ' l).filter (fun t => !t.isEmpty)

/-- Parse a range expression: every token must parse as a comparator,
otherwise the whole range is invalid (`none`), which is how the `semver`
`Range` constructor rejects a malformed expression. An all-whitespace
range has no comparators and matches every version, as in `semver`. -/
def parseRange (r : String) : Option (List Comparator) :=
  (splitWS r.data).mapM parseComparator

/-- Does version `v` meet one comparator? -/
def satComparator (v : SemVer) (c : Comparator) : Bool :=
  match c.op with
  | .ge => cmpVer v c.ver != Ordering.lt
  | .gt => cmpVer v c.ver == Ordering.gt
  | .le => cmpVer v c.ver != Ordering.gt
  | .lt => cmpVer v c.ver == Ordering.lt
  | .eq => cmpVer v c.ver == Ordering.eq

/-- The satisfaction test as the program observes it: `semver.satisfies`
returns `false` (never throws) when the range is malformed or the version
invalid, and the call site additionally wraps it in a `try/catch` that
returns `false`; a version satisfies a valid range when it meets every
comparator. -/
def satisfiesSafe (version rangeStr : String) : Bool :=
  match parseRange rangeStr with
  | none => false
  | some comps =>
    match parseSemVer version with
    | none => false
    | some v => comps.all (satComparator v)

/-- Catalog of Node.js versions from `src/shared/constants.js`:
the literal list, sorted by `semver.compare`. -/
def COMMON_NODEJS_VERSIONS : List String :=
  (["18.0.0", "18.12.0", "18.19.1", "18.20.3", "20.0.0", "20.5.0",
    "20.11.1", "20.15.1", "21.0.0", "21.7.3", "22.0.0", "22.4.1"]).mergeSort leVerStr

/-- Catalog of NPM versions from `src/shared/constants.js`. -/
def COMMON_NPM_VERSIONS : List String :=
  (["8.0.0", "8.19.4", "9.0.0", "9.9.3", "10.0.0", "10.8.1"]).mergeSort leVerStr

/-- Raw catalog input of the filtered construction (`part_004`):
release-channel aliases mixed with concrete versions. -/
def NODEJS_VERSIONS_WITH_ALIASES : List String :=
  ["lts/hydrogen", "18.20.8", "lts/iron", "20.19.1", "lts/jod", "22.15.0", "24.0.1"]

/-- Catalog construction of `part_004`: keep only the entries
`semver.valid` accepts, then sort by `semver.compare`
(`raw.filter(v => valid(v)).sort(compare)`). -/
def buildCatalog (raw : List String) : List String :=
  (raw.filter (fun v => (parseSemVer v).isSome)).mergeSort leVerStr

/-- The declared engine constraints of a dependency's manifest:
each field is absent or a string (an empty string is falsy in
JavaScript and is skipped by the collector's truthiness tests). -/
structure Engines where
  node : Option String
  npm : Option String
deriving DecidableEq, Repr

/-- What reading one dependency's `package.json` can yield. -/
inductive DepMeta
  | missing
  | unreadable
  | pkg (engines : Option Engines)
deriving DecidableEq, Repr

/-- JavaScript truthiness of an optional string. -/
def truthy : Option String → Bool
  | none => false
  | some s => !s.isEmpty

/-- Default range recorded when a dependency's metadata is missing,
unreadable, or has no `engines` field (`">=0.10.0"` in the source). -/
def DEFAULT_NODE_RANGE : String := ">=0.10.0"

/-- One step of the constraint collector (the body of the dependency
loop in `analyzeProjectIncludes`): the accumulator is the pair
(`allNodeRanges`, `allNpmRanges`). -/
def collectDep (acc : List String × List String) (d : DepMeta) :
    List String × List String :=
  match d with
  | .missing => (acc.1 ++ [DEFAULT_NODE_RANGE], acc.2)
  | .unreadable => (acc.1 ++ [DEFAULT_NODE_RANGE], acc.2)
  | .pkg none => (acc.1 ++ [DEFAULT_NODE_RANGE], acc.2)
  | .pkg (some e) =>
    let a1 := if truthy e.node then acc.1 ++ [e.node.getD ""] else acc.1
    let a2 := if truthy e.npm then acc.2 ++ [e.npm.getD ""] else acc.2
    (a1, a2)

/-- The constraint collector: the dependency loop of
`analyzeProjectIncludes`, over the metadata of each dependency in order. -/
def collectRanges (deps : List DepMeta) : List String × List String :=
  deps.foldl collectDep ([], [])

/-- The filtered catalog (`compatibleNodeVersions` /
`compatibleNpmVersions` in the source): the versions meeting every
collected constraint, in catalog order. -/
def compatibleVersions (catalog ranges : List String) : List String :=
  catalog.filter fun version =>
    ranges.all fun rangeStr => satisfiesSafe version rangeStr

/-- The Node-range resolver (lines 119-144 of
`analyzeProjectIncludes.js`): filter the catalog by all constraints and
take first/last; with no constraints but a non-empty dependency set,
default to the full catalog's bounds. -/
def resolveNode (catalog allNodeRanges : List String) (depCount : Nat) :
    Option String × Option String :=
  if allNodeRanges.length > 0 then
    if (compatibleVersions catalog allNodeRanges).length > 0 then
      ((compatibleVersions catalog allNodeRanges).head?,
       (compatibleVersions catalog allNodeRanges).getLast?)
    else (none, none)
  else if depCount > 0 then (catalog.head?, catalog.getLast?)
  else (none, none)

/-- The NPM-range resolver (lines 146-167): same filter, but with no
full-catalog default branch for an empty constraint list. -/
def resolveNpm (catalog allNpmRanges : List String) :
    Option String × Option String :=
  if allNpmRanges.length > 0 then
    if (compatibleVersions catalog allNpmRanges).length > 0 then
      ((compatibleVersions catalog allNpmRanges).head?,
       (compatibleVersions catalog allNpmRanges).getLast?)
    else (none, none)
  else (none, none)

/-- The parsed project manifest's dependency sections (only the
dependency names matter downstream). -/
structure ProjectManifest where
  dependencies : List String
  devDependencies : List String
deriving DecidableEq, Repr

/-- Outcome of locating and parsing the project's `package.json`. -/
inductive ManifestRead
  | notFound
  | parseError (detail : String)
  | ok (m : ProjectManifest)
deriving DecidableEq, Repr

/-- The analysis record returned by `analyzeProjectIncludes`. -/
structure ProjectAnalysisResult where
  projectPackageJsonPath : String
  minNode : Option String
  maxNode : Option String
  minNpm : Option String
  maxNpm : Option String
  note : Option String
deriving DecidableEq, Repr

/-- The orchestrator `analyzeProjectIncludes`, with filesystem access
replaced by the manifest-read outcome and a per-dependency metadata
lookup; the second component collects the user-visible error messages
shown via `showErrorMessage`. -/
def analyzeProjectIncludes (projectPath : String) (read : ManifestRead)
    (depMeta : String → DepMeta) :
    Option ProjectAnalysisResult × List String :=
  let pkgPath := projectPath ++ "/package.json"
  match read with
  | .notFound => (none, ["package.json not found in " ++ projectPath])
  | .parseError d => (none, ["Error parsing " ++ pkgPath ++ ": " ++ d])
  | .ok m =>
    let depNames := (m.dependencies ++ m.devDependencies).dedup
    if depNames.length = 0 then
      (some { projectPackageJsonPath := pkgPath, minNode := none,
              maxNode := none, minNpm := none, maxNpm := none,
              note := some "No dependencies to analyze." }, [])
    else
      let ranges := collectRanges (depNames.map depMeta)
      let nodeRes := resolveNode COMMON_NODEJS_VERSIONS ranges.1 depNames.length
      let npmRes := resolveNpm COMMON_NPM_VERSIONS ranges.2
      (some { projectPackageJsonPath := pkgPath, minNode := nodeRes.1,
              maxNode := nodeRes.2, minNpm := npmRes.1, maxNpm := npmRes.2,
              note := none }, [])

/-- The range formatter `formatVersionRange` of `src/utils/common.js`,
with the JavaScript falsiness tests (`!minVersion`, `if (minVersion)`)
made explicit. -/
def formatVersionRange (minVersion maxVersion : Option String) : Option String :=
  if !truthy minVersion && !truthy maxVersion then none
  else
    let range := ""
    let range := if truthy minVersion then range ++ ">=" ++ minVersion.getD "" else range
    let range :=
      if truthy maxVersion then
        (if truthy minVersion then range ++ " " else range) ++ "<=" ++ maxVersion.getD ""
      else range
    some range

/-- The Resolved-Range invariant of the data model: both bounds absent,
or both present, drawn from the catalog, with minimum ≤ maximum in
semantic-version precedence. -/
def rangeInv (catalog : List String) (p : Option String × Option String) : Prop :=
  (p.1 = none ∧ p.2 = none) ∨
  ∃ a b, p.1 = some a ∧ p.2 = some b ∧ a ∈ catalog ∧ b ∈ catalog ∧
    leVerStr a b = true

example : parseSemVer "18.0.0" = some ⟨18, 0, 0⟩ := by decide
example : parseSemVer "lts/hydrogen" = none := by decide
example : parseSemVer "v1.0.0" = some ⟨1, 0, 0⟩ := by decide
example : satisfiesSafe "19.5.0" ">=18.0.0 <20.0.0" = true := by decide
example : satisfiesSafe "20.0.0" ">=18.0.0 <20.0.0" = false := by decide
example : satisfiesSafe "19.5.0" "garbage" = false := by decide
example :
    resolveNode ["18.0.0", "19.0.0", "19.5.0", "20.0.0"] [">=18.0.0 <20.0.0"] 1 =
      (some "18.0.0", some "19.5.0") := by decide
example : formatVersionRange (some "12.0.0") (some "16.0.0") = some ">=12.0.0 <=16.0.0" := by decide

/-- The catalog of `src/shared/constants.js` evaluates to its literal
list: the literal is already in ascending precedence order, so the
`semver.compare` sort leaves it unchanged. -/
theorem node_catalog_eq :
    COMMON_NODEJS_VERSIONS =
      ["18.0.0", "18.12.0", "18.19.1", "18.20.3", "20.0.0", "20.5.0",
       "20.11.1", "20.15.1", "21.0.0", "21.7.3", "22.0.0", "22.4.1"] :=
  List.mergeSort_of_sorted (by decide)

/-- The NPM catalog of `src/shared/constants.js` evaluates to its
literal list. -/
theorem npm_catalog_eq :
    COMMON_NPM_VERSIONS = ["8.0.0", "8.19.4", "9.0.0", "9.9.3", "10.0.0", "10.8.1"] :=
  List.mergeSort_of_sorted (by decide)

/-- Characterisation of "not greater" for version precedence. -/
theorem cmpVer_ne_gt_iff (x y : SemVer) :
    (cmpVer x y ≠ Ordering.gt) ↔
      (x.major < y.major ∨ (x.major = y.major ∧
        (x.minor < y.minor ∨ (x.minor = y.minor ∧ x.patch ≤ y.patch)))) := by
  unfold cmpVer
  split_ifs <;> simp <;> omega

/-- Precedence comparison is antisymmetric on parsed versions. -/
theorem cmpVer_antisymm {x y : SemVer} (h1 : cmpVer x y ≠ Ordering.gt)
    (h2 : cmpVer y x ≠ Ordering.gt) : x = y := by
  obtain ⟨a, b, c⟩ := x
  obtain ⟨d, e, f⟩ := y
  rw [cmpVer_ne_gt_iff] at h1 h2
  simp only [SemVer.mk.injEq]
  simp only at h1 h2
  omega

/-- Precedence comparison is transitive. -/
theorem cmpVer_trans {x y z : SemVer} (h1 : cmpVer x y ≠ Ordering.gt)
    (h2 : cmpVer y z ≠ Ordering.gt) : cmpVer x z ≠ Ordering.gt := by
  rw [cmpVer_ne_gt_iff] at h1 h2 ⊢
  omega

/-- Precedence comparison is total. -/
theorem cmpVer_total (x y : SemVer) :
    cmpVer x y ≠ Ordering.gt ∨ cmpVer y x ≠ Ordering.gt := by
  rw [cmpVer_ne_gt_iff, cmpVer_ne_gt_iff]
  omega

/-- Transitivity of the lifted comparison. -/
theorem cmpOpt_ne_gt_trans {x y z : Option SemVer} (h1 : cmpOpt x y ≠ Ordering.gt)
    (h2 : cmpOpt y z ≠ Ordering.gt) : cmpOpt x z ≠ Ordering.gt := by
  match x, y, z with
  | none, _, none => simp [cmpOpt]
  | none, _, some _ => simp [cmpOpt]
  | some a, none, _ => simp [cmpOpt] at h1
  | some a, some b, none => simp [cmpOpt] at h2
  | some a, some b, some c => exact cmpVer_trans h1 h2

/-- Totality of the lifted comparison. -/
theorem cmpOpt_ne_gt_total (x y : Option SemVer) :
    cmpOpt x y ≠ Ordering.gt ∨ cmpOpt y x ≠ Ordering.gt := by
  match x, y with
  | none, none => left; simp [cmpOpt]
  | none, some _ => left; simp [cmpOpt]
  | some _, none => right; simp [cmpOpt]
  | some a, some b => exact cmpVer_total a b

/-- Antisymmetry of the lifted comparison. -/
theorem cmpOpt_antisymm {x y : Option SemVer} (h1 : cmpOpt x y ≠ Ordering.gt)
    (h2 : cmpOpt y x ≠ Ordering.gt) : x = y := by
  match x, y with
  | none, none => rfl
  | none, some b => simp [cmpOpt] at h2
  | some a, none => simp [cmpOpt] at h1
  | some a, some b => exact congrArg some (cmpVer_antisymm h1 h2)

/-- Unfolding of the boolean string order. -/
theorem leVerStr_eq_true_iff (a b : String) :
    leVerStr a b = true ↔ cmpOpt (parseSemVer a) (parseSemVer b) ≠ Ordering.gt := by
  unfold leVerStr
  cases cmpOpt (parseSemVer a) (parseSemVer b) <;> decide

/-- The string order is reflexive. -/
theorem leVerStr_refl (a : String) : leVerStr a a = true := by
  rw [leVerStr_eq_true_iff]
  cases parseSemVer a with
  | none => simp [cmpOpt]
  | some v =>
    show cmpVer v v ≠ Ordering.gt
    rw [cmpVer_ne_gt_iff]
    omega

/-- The string order is transitive. -/
theorem leVerStr_trans (a b c : String) (h1 : leVerStr a b) (h2 : leVerStr b c) :
    leVerStr a c := by
  rw [leVerStr_eq_true_iff] at h1 h2 ⊢
  exact cmpOpt_ne_gt_trans h1 h2

/-- The string order is total. -/
theorem leVerStr_total (a b : String) : leVerStr a b || leVerStr b a := by
  simp only [Bool.or_eq_true, leVerStr_eq_true_iff]
  exact cmpOpt_ne_gt_total _ _

/-- A constructed catalog is sorted by precedence. -/
theorem buildCatalog_sorted (raw : List String) :
    (buildCatalog raw).Pairwise fun a b => leVerStr a b = true :=
  List.sorted_mergeSort leVerStr_trans leVerStr_total _

/-- A constructed catalog holds exactly the valid entries of the input. -/
theorem mem_buildCatalog (raw : List String) (s : String) :
    s ∈ buildCatalog raw ↔ s ∈ raw ∧ (parseSemVer s).isSome := by
  simp [buildCatalog, List.mem_filter]

/-- Permuting the raw input list cannot change the sequence of versions
the constructed catalog denotes. -/
theorem buildCatalog_map_parse_invariant {raw₁ raw₂ : List String} (h : raw₁.Perm raw₂) :
    (buildCatalog raw₁).map parseSemVer = (buildCatalog raw₂).map parseSemVer := by
  have hperm : (buildCatalog raw₁).Perm (buildCatalog raw₂) :=
    (List.mergeSort_perm _ _).trans ((h.filter _).trans (List.mergeSort_perm _ _).symm)
  have hs1 : ((buildCatalog raw₁).map parseSemVer).Pairwise
      fun x y => cmpOpt x y ≠ Ordering.gt :=
    (buildCatalog_sorted raw₁).map parseSemVer
      fun a b hab => (leVerStr_eq_true_iff a b).mp hab
  have hs2 : ((buildCatalog raw₂).map parseSemVer).Pairwise
      fun x y => cmpOpt x y ≠ Ordering.gt :=
    (buildCatalog_sorted raw₂).map parseSemVer
      fun a b hab => (leVerStr_eq_true_iff a b).mp hab
  haveI : IsAntisymm (Option SemVer) fun x y => cmpOpt x y ≠ Ordering.gt :=
    ⟨fun _ _ => cmpOpt_antisymm⟩
  exact List.eq_of_perm_of_sorted (hperm.map _) hs1 hs2

/-- A sorted non-empty list has a first and a last element, both members,
with first ≤ last. -/
theorem sorted_head_getLast {α : Type} {R : α → α → Prop} (hrefl : ∀ a, R a a) :
    ∀ (l : List α), l.Pairwise R → l ≠ [] →
      ∃ a b, l.head? = some a ∧ l.getLast? = some b ∧ R a b ∧ a ∈ l ∧ b ∈ l
  | [], _, h => absurd rfl h
  | [x], _, _ =>
    ⟨x, x, rfl, rfl, hrefl x, List.mem_singleton_self x, List.mem_singleton_self x⟩
  | x :: y :: ys, hp, _ => by
    obtain ⟨hx, hp'⟩ := List.pairwise_cons.mp hp
    obtain ⟨a, b, _, hb, _, _, hmb⟩ :=
      sorted_head_getLast hrefl (y :: ys) hp' (by simp)
    refine ⟨x, b, rfl, ?_, hx b hmb, List.mem_cons_self x _, List.mem_cons_of_mem x hmb⟩
    rw [List.getLast?_cons_cons]
    exact hb

/-- C5 counterexample: for the non-null minimum `""` the formatter
returns `none`, not `">=" ++ ""`, because JavaScript treats the empty
string as falsy. -/
theorem formatVersionRange_empty_min_refutes :
    formatVersionRange (some "") none = none ∧
    (none : Option String) ≠ some (">=" ++ "") := by
  exact ⟨rfl, by decide⟩

/-- C5 (amended): for non-null, non-empty bounds the formatter obeys the
four rules: both absent gives an absent result, a single bound gives
`>=m` or `<=M`, and both bounds give `>=m <=M` with the minimum clause
first unconditionally. -/
theorem formatVersionRange_spec (m M : String) (hm : m ≠ "") (hM : M ≠ "") :
    formatVersionRange none none = none ∧
    formatVersionRange (some m) none = some (">=" ++ m) ∧
    formatVersionRange none (some M) = some ("<=" ++ M) ∧
    formatVersionRange (some m) (some M) = some (">=" ++ m ++ " " ++ "<=" ++ M) := by
  have hm' : m.isEmpty = false := by
    cases h : m.isEmpty with
    | false => rfl
    | true => exact absurd ((String.isEmpty_iff m).mp h) hm
  have hM' : M.isEmpty = false := by
    cases h : M.isEmpty with
    | false => rfl
    | true => exact absurd ((String.isEmpty_iff M).mp h) hM
  refine ⟨rfl, ?_, ?_, ?_⟩ <;> simp [formatVersionRange, truthy, hm', hM']

/-- C5 witness: the spec's own example `(">=12.0.0 <=16.0.0")`. -/
theorem formatVersionRange_spec_witness :
    ("12.0.0" : String) ≠ "" ∧ ("16.0.0" : String) ≠ "" ∧
    formatVersionRange (some "12.0.0") (some "16.0.0") =
      some (">=" ++ "12.0.0" ++ " " ++ "<=" ++ "16.0.0") :=
  ⟨by decide, by decide,
   (formatVersionRange_spec "12.0.0" "16.0.0" (by decide) (by decide)).2.2.2⟩

/-- C10: the formatter treats an empty-string bound exactly like an
absent bound, so an empty string never appears inside an emitted range. -/
theorem formatVersionRange_empty_string_spec (M : String) (h : M ≠ "") :
    formatVersionRange (some "") (some M) = some ("<=" ++ M) ∧
    formatVersionRange (some M) (some "") = some (">=" ++ M) ∧
    formatVersionRange (some "") (some "") = none ∧
    formatVersionRange (some "") none = none ∧
    formatVersionRange none (some "") = none := by
  have h' : M.isEmpty = false := by
    cases hh : M.isEmpty with
    | false => rfl
    | true => exact absurd ((String.isEmpty_iff M).mp hh) h
  have he : ("" : String).isEmpty = true := rfl
  refine ⟨?_, ?_, rfl, rfl, rfl⟩ <;> simp [formatVersionRange, truthy, h', he]

/-- C10 witness at the concrete bound `"16.0.0"`. -/
theorem formatVersionRange_empty_string_spec_witness :
    ("16.0.0" : String) ≠ "" ∧
    formatVersionRange (some "") (some "16.0.0") = some ("<=" ++ "16.0.0") :=
  ⟨by decide, (formatVersionRange_empty_string_spec "16.0.0" (by decide)).1⟩

/-- C9: a missing or unparsable project manifest aborts the analysis
with no result, after surfacing a user-visible error that names the
unreadable path. -/
theorem analyze_manifest_failure (p d : String) (f : String → DepMeta) :
    analyzeProjectIncludes p .notFound f =
      (none, ["package.json not found in " ++ p]) ∧
    analyzeProjectIncludes p (.parseError d) f =
      (none, ["Error parsing " ++ (p ++ "/package.json") ++ ": " ++ d]) :=
  ⟨rfl, rfl⟩

/-- C3: a dependency whose metadata is missing or unreadable contributes
exactly one permissive default to the runtime list and nothing to the
package-manager list, and a project with one such dependency analyzes
exactly like one whose dependency declared no engine constraints. -/
theorem default_for_missing_metadata (acc : List String × List String) (p name : String) :
    collectDep acc .missing = (acc.1 ++ [DEFAULT_NODE_RANGE], acc.2) ∧
    collectDep acc .unreadable = (acc.1 ++ [DEFAULT_NODE_RANGE], acc.2) ∧
    analyzeProjectIncludes p (.ok { dependencies := [name], devDependencies := [] })
        (fun _ => .missing) =
      analyzeProjectIncludes p (.ok { dependencies := [name], devDependencies := [] })
        (fun _ => .pkg none) ∧
    analyzeProjectIncludes p (.ok { dependencies := [name], devDependencies := [] })
        (fun _ => .unreadable) =
      analyzeProjectIncludes p (.ok { dependencies := [name], devDependencies := [] })
        (fun _ => .pkg none) :=
  ⟨rfl, rfl, rfl, rfl⟩

/-- C4: a malformed constraint makes the satisfaction test return
`false` (never an error), and the resolvers still complete, returning
the unsatisfiable-shape `(absent, absent)` since every version fails the
malformed constraint. -/
theorem malformed_constraint_never_aborts (v r : String) (h : parseRange r = none) :
    satisfiesSafe v r = false ∧
    ∀ (C pre post : List String) (n : Nat),
      resolveNode C (pre ++ r :: post) n = (none, none) ∧
      resolveNpm C (pre ++ r :: post) = (none, none) := by
  have hsat : ∀ v' : String, satisfiesSafe v' r = false := by
    intro v'
    unfold satisfiesSafe
    rw [h]
  refine ⟨hsat v, ?_⟩
  intro C pre post n
  have hcompat : compatibleVersions C (pre ++ r :: post) = [] := by
    unfold compatibleVersions
    rw [List.filter_eq_nil_iff]
    intro a _ hall
    have hr := (List.all_eq_true.mp hall) r (by simp)
    rw [hsat a] at hr
    cases hr
  constructor
  · unfold resolveNode
    rw [hcompat]
    simp
  · unfold resolveNpm
    rw [hcompat]
    simp

/-- C4 witness: the malformed constraint `"garbage"`. -/
theorem malformed_constraint_witness :
    parseRange "garbage" = none ∧
    satisfiesSafe "18.0.0" "garbage" = false ∧
    resolveNode ["18.0.0"] ["garbage"] 1 = (none, none) :=
  ⟨by decide, (malformed_constraint_never_aborts "18.0.0" "garbage" (by decide)).1,
   ((malformed_constraint_never_aborts "18.0.0" "garbage" (by decide)).2 ["18.0.0"] [] [] 1).1⟩

/-- C8: with zero dependencies (direct and development combined) the
analysis returns the no-dependencies note with all four bounds absent,
and the result does not depend on the dependency-metadata lookup. -/
theorem analyze_no_dependencies (p : String) (m : ProjectManifest)
    (f g : String → DepMeta)
    (h : (m.dependencies ++ m.devDependencies).dedup = []) :
    analyzeProjectIncludes p (.ok m) f =
      (some { projectPackageJsonPath := p ++ "/package.json", minNode := none,
              maxNode := none, minNpm := none, maxNpm := none,
              note := some "No dependencies to analyze." }, []) ∧
    analyzeProjectIncludes p (.ok m) f = analyzeProjectIncludes p (.ok m) g := by
  have key : ∀ k : String → DepMeta,
      analyzeProjectIncludes p (.ok m) k =
        (some { projectPackageJsonPath := p ++ "/package.json", minNode := none,
                maxNode := none, minNpm := none, maxNpm := none,
                note := some "No dependencies to analyze." }, []) := by
    intro k
    simp only [analyzeProjectIncludes, h]
    rfl
  exact ⟨key f, (key f).trans (key g).symm⟩

/-- C8 witness: the empty manifest. -/
theorem analyze_no_dependencies_witness :
    ((([] : List String) ++ ([] : List String)).dedup = []) ∧
    analyzeProjectIncludes "/p" (.ok { dependencies := [], devDependencies := [] })
        (fun _ => .missing) =
      (some { projectPackageJsonPath := "/p" ++ "/package.json", minNode := none,
              maxNode := none, minNpm := none, maxNpm := none,
              note := some "No dependencies to analyze." }, []) :=
  ⟨rfl, (analyze_no_dependencies "/p" { dependencies := [], devDependencies := [] }
    (fun _ => .missing) (fun _ => .pkg none) rfl).1⟩

/-- C1: with a non-empty constraint list the resolver's compatible list
is exactly the catalog-ordered sublist of versions meeting every
constraint, and the result is its (first, last), or (absent, absent)
when it is empty. -/
theorem resolver_filter_first_last (C L : List String) (n : Nat) (h : L ≠ []) :
    (∀ v, v ∈ compatibleVersions C L ↔ v ∈ C ∧ ∀ r ∈ L, satisfiesSafe v r = true) ∧
    resolveNode C L n =
      (if compatibleVersions C L = [] then (none, none)
       else ((compatibleVersions C L).head?, (compatibleVersions C L).getLast?)) := by
  constructor
  · intro v
    simp [compatibleVersions, List.mem_filter, List.all_eq_true]
  · unfold resolveNode
    rw [if_pos (List.length_pos.mpr h)]
    by_cases hc : compatibleVersions C L = []
    · simp [hc]
    · rw [if_neg hc, if_pos (List.length_pos.mpr hc)]

/-- C1 witness: the spec's end-to-end scenario, catalog
`["18.0.0","19.0.0","19.5.0","20.0.0"]` with constraint
`">=18.0.0 <20.0.0"` resolving to `("18.0.0","19.5.0")`. -/
theorem resolver_filter_first_last_witness :
    ([">=18.0.0 <20.0.0"] : List String) ≠ [] ∧
    resolveNode ["18.0.0", "19.0.0", "19.5.0", "20.0.0"] [">=18.0.0 <20.0.0"] 1 =
      (some "18.0.0", some "19.5.0") := by
  refine ⟨by decide, ?_⟩
  rw [(resolver_filter_first_last ["18.0.0", "19.0.0", "19.5.0", "20.0.0"]
    [">=18.0.0 <20.0.0"] 1 (by decide)).2]
  decide

/-- C2 counterexample: a dependency whose `engines` declares only an NPM
constraint records no runtime constraint at all, so the runtime
empty-list case does arise with a non-empty dependency set — and the
resolver then returns the full catalog's bounds, not (absent, absent). -/
theorem runtime_empty_constraints_counterexample :
    collectRanges [DepMeta.pkg (some { node := none, npm := some ">=8.0.0" })] =
      ([], [">=8.0.0"]) ∧
    resolveNode COMMON_NODEJS_VERSIONS [] 1 = (some "18.0.0", some "22.4.1") ∧
    (analyzeProjectIncludes "/p" (.ok { dependencies := ["a"], devDependencies := [] })
        (fun _ => .pkg (some { node := none, npm := some ">=8.0.0" }))).1 =
      some { projectPackageJsonPath := "/p/package.json", minNode := some "18.0.0",
             maxNode := some "22.4.1", minNpm := some "8.0.0",
             maxNpm := some "10.8.1", note := none } := by
  refine ⟨by decide, ?_, ?_⟩
  · simp only [resolveNode, node_catalog_eq]
    decide
  · simp only [analyzeProjectIncludes, resolveNode, resolveNpm,
      node_catalog_eq, npm_catalog_eq]
    decide

/-- C2 (amended): an empty collected constraint list gives
(absent, absent) for the package-manager kind, but for the runtime kind
(with a non-empty dependency set) it gives the full catalog's first and
last entries instead. -/
theorem empty_constraint_list_resolution (catalog : List String) (n : Nat) (hn : 0 < n) :
    resolveNpm catalog [] = (none, none) ∧
    resolveNode catalog [] n = (catalog.head?, catalog.getLast?) := by
  constructor
  · rfl
  · unfold resolveNode
    rw [if_neg (by simp), if_pos hn]

/-- C2 witness: one dependency, empty runtime constraint list, full
Node catalog bounds. -/
theorem empty_constraint_list_resolution_witness :
    (0 : Nat) < 1 ∧
    resolveNode COMMON_NODEJS_VERSIONS [] 1 = (some "18.0.0", some "22.4.1") := by
  refine ⟨by decide, ?_⟩
  rw [(empty_constraint_list_resolution COMMON_NODEJS_VERSIONS 1 (by decide)).2,
    node_catalog_eq]
  decide

/-- The shared constants' Node catalog is sorted by precedence. -/
theorem node_catalog_sorted :
    COMMON_NODEJS_VERSIONS.Pairwise fun a b => leVerStr a b = true := by
  rw [node_catalog_eq]
  decide

/-- The shared constants' NPM catalog is sorted by precedence. -/
theorem npm_catalog_sorted :
    COMMON_NPM_VERSIONS.Pairwise fun a b => leVerStr a b = true := by
  rw [npm_catalog_eq]
  decide

/-- Any result of the Node resolver over a sorted catalog meets the
Resolved-Range invariant. -/
theorem resolveNode_rangeInv (catalog ranges : List String) (n : Nat)
    (hs : catalog.Pairwise fun a b => leVerStr a b = true) :
    rangeInv catalog (resolveNode catalog ranges n) := by
  unfold resolveNode
  by_cases h1 : ranges.length > 0
  · rw [if_pos h1]
    by_cases h2 : (compatibleVersions catalog ranges).length > 0
    · rw [if_pos h2]
      have hp : (compatibleVersions catalog ranges).Pairwise
          fun a b => leVerStr a b = true := hs.filter _
      obtain ⟨a, b, ha, hb, hab, hma, hmb⟩ :=
        sorted_head_getLast leVerStr_refl _ hp
          (List.length_pos.mp h2)
      exact Or.inr ⟨a, b, ha, hb, List.mem_of_mem_filter hma,
        List.mem_of_mem_filter hmb, hab⟩
    · rw [if_neg h2]
      exact Or.inl ⟨rfl, rfl⟩
  · rw [if_neg h1]
    by_cases h3 : n > 0
    · rw [if_pos h3]
      cases hcat : catalog with
      | nil => exact Or.inl ⟨rfl, rfl⟩
      | cons x xs =>
        rw [hcat] at hs
        obtain ⟨a, b, ha, hb, hab, hma, hmb⟩ :=
          sorted_head_getLast leVerStr_refl (x :: xs) hs (by simp)
        exact Or.inr ⟨a, b, ha, hb, hcat ▸ hma, hcat ▸ hmb, hab⟩
    · rw [if_neg h3]
      exact Or.inl ⟨rfl, rfl⟩

/-- Any result of the NPM resolver over a sorted catalog meets the
Resolved-Range invariant. -/
theorem resolveNpm_rangeInv (catalog ranges : List String)
    (hs : catalog.Pairwise fun a b => leVerStr a b = true) :
    rangeInv catalog (resolveNpm catalog ranges) := by
  unfold resolveNpm
  by_cases h1 : ranges.length > 0
  · rw [if_pos h1]
    by_cases h2 : (compatibleVersions catalog ranges).length > 0
    · rw [if_pos h2]
      have hp : (compatibleVersions catalog ranges).Pairwise
          fun a b => leVerStr a b = true := hs.filter _
      obtain ⟨a, b, ha, hb, hab, hma, hmb⟩ :=
        sorted_head_getLast leVerStr_refl _ hp
          (List.length_pos.mp h2)
      exact Or.inr ⟨a, b, ha, hb, List.mem_of_mem_filter hma,
        List.mem_of_mem_filter hmb, hab⟩
    · rw [if_neg h2]
      exact Or.inl ⟨rfl, rfl⟩
  · rw [if_neg h1]
    exact Or.inl ⟨rfl, rfl⟩

/-- C6: every Resolved Range the two resolvers produce over the
program's catalogs has either both bounds absent or both present,
drawn from the catalog, with minimum ≤ maximum in precedence order. -/
theorem resolved_range_invariant (nodeRanges npmRanges : List String) (n : Nat) :
    rangeInv COMMON_NODEJS_VERSIONS (resolveNode COMMON_NODEJS_VERSIONS nodeRanges n) ∧
    rangeInv COMMON_NPM_VERSIONS (resolveNpm COMMON_NPM_VERSIONS npmRanges) :=
  ⟨resolveNode_rangeInv _ _ _ node_catalog_sorted,
   resolveNpm_rangeInv _ _ npm_catalog_sorted⟩

/-- C7 counterexample: `semver.valid` accepts both `"1.0.0"` and
`"v1.0.0"`, `semver.compare` ranks them equal, and the stable sort keeps
input order, so permuting the raw list changes the literal catalog. -/
theorem buildCatalog_order_counterexample :
    (["1.0.0", "v1.0.0"] : List String).Perm ["v1.0.0", "1.0.0"] ∧
    buildCatalog ["1.0.0", "v1.0.0"] ≠ buildCatalog ["v1.0.0", "1.0.0"] := by
  constructor
  · exact List.Perm.swap "v1.0.0" "1.0.0" []
  · have hf1 : (["1.0.0", "v1.0.0"] : List String).filter
        (fun v => (parseSemVer v).isSome) = ["1.0.0", "v1.0.0"] := by decide
    have hf2 : (["v1.0.0", "1.0.0"] : List String).filter
        (fun v => (parseSemVer v).isSome) = ["v1.0.0", "1.0.0"] := by decide
    have e1 : buildCatalog ["1.0.0", "v1.0.0"] = ["1.0.0", "v1.0.0"] := by
      unfold buildCatalog
      rw [hf1]
      exact List.mergeSort_of_sorted (by decide)
    have e2 : buildCatalog ["v1.0.0", "1.0.0"] = ["v1.0.0", "1.0.0"] := by
      unfold buildCatalog
      rw [hf2]
      exact List.mergeSort_of_sorted (by decide)
    rw [e1, e2]
    decide

/-- C7 (amended): catalog construction discards exactly the invalid
entries and sorts ascending by precedence; permuting the raw input
yields a catalog denoting the identical version sequence (the parsed
sequences are equal), though equivalent spellings of one version (such
as `"1.0.0"` and `"v1.0.0"`) may trade places as literal strings. -/
theorem buildCatalog_spec (raw₁ raw₂ : List String) (h : raw₁.Perm raw₂) :
    (∀ s, s ∈ buildCatalog raw₁ ↔ s ∈ raw₁ ∧ (parseSemVer s).isSome) ∧
    ((buildCatalog raw₁).Pairwise fun a b => leVerStr a b = true) ∧
    (buildCatalog raw₁).map parseSemVer = (buildCatalog raw₂).map parseSemVer :=
  ⟨mem_buildCatalog raw₁, buildCatalog_sorted raw₁,
   buildCatalog_map_parse_invariant h⟩

/-- C7 witness: swapping the first two entries of the raw alias list
leaves the parsed catalog sequence unchanged. -/
theorem buildCatalog_spec_witness :
    NODEJS_VERSIONS_WITH_ALIASES.Perm
      ("18.20.8" :: "lts/hydrogen" ::
        ["lts/iron", "20.19.1", "lts/jod", "22.15.0", "24.0.1"]) ∧
    (buildCatalog NODEJS_VERSIONS_WITH_ALIASES).map parseSemVer =
      (buildCatalog ("18.20.8" :: "lts/hydrogen" ::
        ["lts/iron", "20.19.1", "lts/jod", "22.15.0", "24.0.1"])).map parseSemVer := by
  have hperm : NODEJS_VERSIONS_WITH_ALIASES.Perm
      ("18.20.8" :: "lts/hydrogen" ::
        ["lts/iron", "20.19.1", "lts/jod", "22.15.0", "24.0.1"]) :=
    List.Perm.swap "18.20.8" "lts/hydrogen" _
  exact ⟨hperm, (buildCatalog_spec _ _ hperm).2.2⟩
